import Mathlib

/-!
Verification of the extraction and collection engine of
`rollins_room_scraper.py` (Rollins College room-reservation scraper).

The Python source is shallowly embedded below.  HTML parsing
(BeautifulSoup) and the standard-library `re`/`json` modules are external
collaborators: a fetched page is therefore modelled at the parse-tree
level (`Page` below holds the tables, the loaded script-embedded JSON
candidates, and the DOM elements that the three extraction strategies
inspect), while all program logic operating on that tree — keyword
checks, the time regexes, `strptime` format matching, record
construction, deduplication, sorting and the date-range loop — is
translated faithfully from the source.
-/

set_option maxHeartbeats 4000000

/-! ## Calendar dates (`datetime.date` part of `datetime`) -/

/-- A calendar date, the date part of a Python `datetime` (the scraper
normalises all datetimes to midnight before use). -/
structure Date where
  year : Nat
  month : Nat
  day : Nat
deriving DecidableEq, Repr

/-- Gregorian leap-year test. -/
def isLeap (y : Nat) : Bool := (y % 4 == 0 && y % 100 != 0) || y % 400 == 0

/-- Days in a month of a given year. -/
def daysInMonth (y m : Nat) : Nat :=
  if m = 2 then (if isLeap y then 29 else 28)
  else if m = 4 ∨ m = 6 ∨ m = 9 ∨ m = 11 then 30
  else 31

/-- `current + timedelta(days=1)`: the next calendar day. -/
def nextDate (d : Date) : Date :=
  if d.day < daysInMonth d.year d.month then ⟨d.year, d.month, d.day + 1⟩
  else if d.month < 12 then ⟨d.year, d.month + 1, 1⟩
  else ⟨d.year + 1, 1, 1⟩

/-- Rata-die style day number (days since 1970-01-01, Hinnant's
days-from-civil algorithm), used to count loop iterations and to derive
the weekday and ISO week exactly as `datetime` does. -/
def toRD (d : Date) : Int :=
  let y : Int := if d.month ≤ 2 then (d.year : Int) - 1 else (d.year : Int)
  let era : Int := Int.fdiv y 400
  let yoe : Int := y - era * 400
  let mp : Int := if d.month ≤ 2 then (d.month : Int) + 9 else (d.month : Int) - 3
  let doy : Int := Int.fdiv (153 * mp + 2) 5 + (d.day : Int) - 1
  let doe : Int := yoe * 365 + Int.fdiv yoe 4 - Int.fdiv yoe 100 + doy
  era * 146097 + doe - 719468

/-- Inverse of `toRD` (Hinnant's civil-from-days algorithm). -/
def fromRD (z0 : Int) : Date :=
  let z := z0 + 719468
  let era := Int.fdiv z 146097
  let doe := z - era * 146097
  let yoe := Int.fdiv (doe - Int.fdiv doe 1460 + Int.fdiv doe 36524 - Int.fdiv doe 146096) 365
  let y := yoe + era * 400
  let doy := doe - (365 * yoe + Int.fdiv yoe 4 - Int.fdiv yoe 100)
  let mp := Int.fdiv (5 * doy + 2) 153
  let dd := doy - Int.fdiv (153 * mp + 2) 5 + 1
  let m := if mp < 10 then mp + 3 else mp - 9
  let yy := if m ≤ 2 then y + 1 else y
  ⟨yy.toNat, m.toNat, dd.toNat⟩

/-- Python `date.weekday()`: Monday = 0 … Sunday = 6. -/
def pyWeekday (d : Date) : Nat := ((toRD d + 3).emod 7).toNat

/-- `date.strftime("%A")`. -/
def weekdayName (d : Date) : String :=
  ["Monday", "Tuesday", "Wednesday", "Thursday", "Friday", "Saturday", "Sunday"].getD
    (pyWeekday d) ""

/-- `date.isocalendar()[1]`: the ISO-8601 week number, computed through
the Thursday of the date's week. -/
def isoWeek (d : Date) : Nat :=
  let thuRD := toRD d + (3 - (pyWeekday d : Int))
  let thu := fromRD thuRD
  ((Int.fdiv (thuRD - toRD ⟨thu.year, 1, 1⟩) 7) + 1).toNat

/-- `datetime` comparison on midnight-aligned dates (lexicographic). -/
def dateLE (a b : Date) : Bool :=
  decide (a.year < b.year ∨ (a.year = b.year ∧
    (a.month < b.month ∨ (a.month = b.month ∧ a.day ≤ b.day))))

/-- Strict version of `dateLE`. -/
def dateLT (a b : Date) : Bool :=
  decide (a.year < b.year ∨ (a.year = b.year ∧
    (a.month < b.month ∨ (a.month = b.month ∧ a.day < b.day))))

/-! ## String helpers -/

/-- Python `str.lower()` restricted to ASCII (all keywords and inputs in
this development are ASCII, where the two functions agree). -/
def lowerChar (c : Char) : Char :=
  if 'A' ≤ c ∧ c ≤ 'Z' then Char.ofNat (c.toNat + 32) else c

/-- Lower-case a whole string. -/
def lowerStr (s : String) : String := String.mk (s.toList.map lowerChar)

/-- Membership of `pat` as a contiguous substring of `hay`
(the Python `in` operator on strings). -/
def hasSubList : List Char → List Char → Bool
  | hay, pat =>
    match hay with
    | [] => pat.isEmpty
    | _ :: t => pat.isPrefixOf hay || hasSubList t pat

/-- `pat in hay` for strings. -/
def hasSubStr (hay pat : String) : Bool := hasSubList hay.toList pat.toList

/-- `" ".join(xs)`. -/
def joinSpace (xs : List String) : String := String.intercalate " " xs

/-- The whitespace class of Python's `str.strip` / `re` `\s` (ASCII part). -/
def isPyWS (c : Char) : Bool :=
  c = ' ' || c = '\t' || c = '\n' || c = '\r' || c.toNat = 11 || c.toNat = 12

/-- `str.strip()`. -/
def stripChars (cs : List Char) : List Char :=
  ((cs.dropWhile isPyWS).reverse.dropWhile isPyWS).reverse

/-- Numeric value of a digit character. -/
def dval (c : Char) : Nat := c.toNat - 48

/-- Code-point lexicographic `≤` on character lists (Python string
comparison, used by `sort_values`). -/
def charLL : List Char → List Char → Bool
  | [], _ => true
  | _ :: _, [] => false
  | a :: as, b :: bs => if a = b then charLL as bs else decide (a.toNat < b.toNat)

/-- Python string `≤`. -/
def strLEb (a b : String) : Bool := charLL a.toList b.toList

/-- Zero-padded two-digit rendering (`%H`, `%M`, `%m`, `%d` output). -/
def pad2 (n : Nat) : String := if n < 10 then "0" ++ toString n else toString n

/-- Zero-padded four-digit rendering (`%Y` output). -/
def pad4 (n : Nat) : String :=
  if n < 10 then "000" ++ toString n
  else if n < 100 then "00" ++ toString n
  else if n < 1000 then "0" ++ toString n
  else toString n

/-- `date.strftime("%Y-%m-%d")`. -/
def fmtDate (d : Date) : String := pad4 d.year ++ "-" ++ pad2 d.month ++ "-" ++ pad2 d.day

/-- `datetime.strftime("%H:%M")` of a minutes-of-day value. -/
def fmtHM (minutes : Nat) : String := pad2 (minutes / 60) ++ ":" ++ pad2 (minutes % 60)

/-! ## `strptime` field parsers

Each parser models the regex CPython's `_strptime` compiles for the
corresponding directive, specialised to the six format strings tried by
`parse_time_string` (lines 345-348 of the source).  Parsers return the
matched value and the remaining characters. -/

/-- `%I`: `1[0-2]|0[1-9]|[1-9]`. -/
def pI : List Char → Option (Nat × List Char)
  | a :: b :: r =>
    if a = '1' ∧ (b = '0' ∨ b = '1' ∨ b = '2') then some (10 + dval b, r)
    else if a = '0' ∧ b.isDigit ∧ b ≠ '0' then some (dval b, r)
    else if a.isDigit ∧ a ≠ '0' then some (dval a, b :: r)
    else none
  | [a] => if a.isDigit ∧ a ≠ '0' then some (dval a, []) else none
  | [] => none

/-- `%H`: `2[0-3]|[0-1]\d|\d`. -/
def pH : List Char → Option (Nat × List Char)
  | a :: b :: r =>
    if a = '2' ∧ ('0' ≤ b ∧ b ≤ '3') then some (20 + dval b, r)
    else if (a = '0' ∨ a = '1') ∧ b.isDigit then some (10 * dval a + dval b, r)
    else if a.isDigit then some (dval a, b :: r)
    else none
  | [a] => if a.isDigit then some (dval a, []) else none
  | [] => none

/-- `%M`: `[0-5]\d|\d`. -/
def pM : List Char → Option (Nat × List Char)
  | a :: b :: r =>
    if ('0' ≤ a ∧ a ≤ '5') ∧ b.isDigit then some (10 * dval a + dval b, r)
    else if a.isDigit then some (dval a, b :: r)
    else none
  | [a] => if a.isDigit then some (dval a, []) else none
  | [] => none

/-- `%S`: `6[01]|[0-5]\d|\d`. -/
def pS : List Char → Option (Nat × List Char)
  | a :: b :: r =>
    if a = '6' ∧ (b = '0' ∨ b = '1') then some (60 + dval b, r)
    else if ('0' ≤ a ∧ a ≤ '5') ∧ b.isDigit then some (10 * dval a + dval b, r)
    else if a.isDigit then some (dval a, b :: r)
    else none
  | [a] => if a.isDigit then some (dval a, []) else none
  | [] => none

/-- `%Y`: four digits. -/
def pY : List Char → Option (Nat × List Char)
  | a :: b :: c :: d :: r =>
    if a.isDigit ∧ b.isDigit ∧ c.isDigit ∧ d.isDigit then
      some (dval a * 1000 + dval b * 100 + dval c * 10 + dval d, r)
    else none
  | _ => none

/-- `%m`: `1[0-2]|0[1-9]|[1-9]`. -/
def pMon : List Char → Option (Nat × List Char) := pI

/-- `%d`: `3[01]|[12]\d|0[1-9]|[1-9]`. -/
def pD : List Char → Option (Nat × List Char)
  | a :: b :: r =>
    if a = '3' ∧ (b = '0' ∨ b = '1') then some (30 + dval b, r)
    else if (a = '1' ∨ a = '2') ∧ b.isDigit then some (10 * dval a + dval b, r)
    else if a = '0' ∧ b.isDigit ∧ b ≠ '0' then some (dval b, r)
    else if a.isDigit ∧ a ≠ '0' then some (dval a, b :: r)
    else none
  | [a] => if a.isDigit ∧ a ≠ '0' then some (dval a, []) else none
  | [] => none

/-- `%p`: `AM|PM`, case-insensitive; `true` means PM. -/
def pP : List Char → Option (Bool × List Char)
  | a :: b :: r =>
    if lowerChar a = 'a' ∧ lowerChar b = 'm' then some (false, r)
    else if lowerChar a = 'p' ∧ lowerChar b = 'm' then some (true, r)
    else none
  | _ => none

/-- A literal character in a format string. -/
def pLit (c : Char) : List Char → Option (List Char)
  | a :: r => if a = c then some r else none
  | [] => none

/-- Whitespace in a format string compiles to `\s+`. -/
def pWS1 : List Char → Option (List Char)
  | a :: r => if isPyWS a then some (r.dropWhile isPyWS) else none
  | [] => none

/-- `strptime`'s 12-hour clock conversion from `%I` and `%p`. -/
def applyMeridiem (h : Nat) (pm : Bool) : Nat :=
  if pm then (if h = 12 then 12 else h + 12)
  else (if h = 12 then 0 else h)

/-- Format `"%I:%M %p"`. -/
def fmt1 (cs : List Char) : Option (Nat × Nat) := do
  let (h, r1) ← pI cs
  let r2 ← pLit ':' r1
  let (m, r3) ← pM r2
  let r4 ← pWS1 r3
  let (pm, r5) ← pP r4
  if r5.isEmpty then some (applyMeridiem h pm, m) else none

/-- Format `"%I:%M%p"`. -/
def fmt2 (cs : List Char) : Option (Nat × Nat) := do
  let (h, r1) ← pI cs
  let r2 ← pLit ':' r1
  let (m, r3) ← pM r2
  let (pm, r4) ← pP r3
  if r4.isEmpty then some (applyMeridiem h pm, m) else none

/-- Format `"%H:%M"`. -/
def fmt3 (cs : List Char) : Option (Nat × Nat) := do
  let (h, r1) ← pH cs
  let r2 ← pLit ':' r1
  let (m, r3) ← pM r2
  if r3.isEmpty then some (h, m) else none

/-- Format `"%I %p"`. -/
def fmt4 (cs : List Char) : Option (Nat × Nat) := do
  let (h, r1) ← pI cs
  let r2 ← pWS1 r1
  let (pm, r3) ← pP r2
  if r3.isEmpty then some (applyMeridiem h pm, 0) else none

/-- The shared tail of the two ISO-like formats; checks everything
`datetime.strptime` validates before constructing the `datetime`
(calendar validity of the date, second at most 59). -/
def fmtISOTail (y mo dd : Nat) (cs : List Char) : Option (Nat × Nat) := do
  let (h, r1) ← pH cs
  let r2 ← pLit ':' r1
  let (m, r3) ← pM r2
  let r4 ← pLit ':' r3
  let (s, r5) ← pS r4
  if r5.isEmpty ∧ 1 ≤ y ∧ dd ≤ daysInMonth y mo ∧ s ≤ 59 then some (h, m) else none

/-- Format `"%Y-%m-%dT%H:%M:%S"`. -/
def fmt5 (cs : List Char) : Option (Nat × Nat) := do
  let (y, r1) ← pY cs
  let r2 ← pLit '-' r1
  let (mo, r3) ← pMon r2
  let r4 ← pLit '-' r3
  let (dd, r5) ← pD r4
  let r6 ← pLit 'T' r5
  fmtISOTail y mo dd r6

/-- Format `"%Y-%m-%d %H:%M:%S"`. -/
def fmt6 (cs : List Char) : Option (Nat × Nat) := do
  let (y, r1) ← pY cs
  let r2 ← pLit '-' r1
  let (mo, r3) ← pMon r2
  let r4 ← pLit '-' r3
  let (dd, r5) ← pD r4
  let r6 ← pWS1 r5
  fmtISOTail y mo dd r6

/-- The core of `parse_time_string` (lines 342-355): strip the token and
try the six formats in their fixed priority order; `some (hour, minute)`
on the first success, `none` when every format raises `ValueError`. -/
def parseClock (s : String) : Option (Nat × Nat) :=
  let cs := stripChars s.toList
  (fmt1 cs).orElse fun _ =>
  (fmt2 cs).orElse fun _ =>
  (fmt3 cs).orElse fun _ =>
  (fmt4 cs).orElse fun _ =>
  (fmt5 cs).orElse fun _ =>
  fmt6 cs

/-- `parse_time_string(time_str, base_date)`: the parsed wall-clock time
re-anchored to `base_date` via `base_date.replace(hour=…, minute=…)`,
returned as the date together with minutes after midnight.  `none`
models the `ValueError` raised when no format matches. -/
def parse_time_string (time_str : String) (base_date : Date) : Option (Date × Nat) :=
  (parseClock time_str).map fun p => (base_date, p.1 * 60 + p.2)

/-! ## JSON values (the result of `json.loads` on a script-embedded block) -/

/-- A loaded JSON value.  Strategy 2 consumes these after `json.loads`. -/
inductive Json where
  | jstr (s : String)
  | jnum (n : Int)
  | jbool (b : Bool)
  | jnull
  | jarr (items : List Json)
  | jobj (fields : List (String × Json))

mutual

/-- Python `repr` of a loaded JSON value (for strings without escape
characters, which is all the extraction logic can meaningfully consume:
any composite rendering fails every time format downstream). -/
def pyRepr : Json → String
  | .jstr s => "'" ++ s ++ "'"
  | .jnum n => toString n
  | .jbool b => if b then "True" else "False"
  | .jnull => "None"
  | .jarr items => "[" ++ String.intercalate ", " (pyReprList items) ++ "]"
  | .jobj fields => "\x7b" ++ String.intercalate ", " (pyReprFields fields) ++ "\x7d"

/-- `repr` of each element of a list. -/
def pyReprList : List Json → List String
  | [] => []
  | j :: js => pyRepr j :: pyReprList js

/-- `repr` of each key/value pair of a dict. -/
def pyReprFields : List (String × Json) → List String
  | [] => []
  | (k, v) :: fs => ("'" ++ k ++ "': " ++ pyRepr v) :: pyReprFields fs

end

/-- Python `str()` of a loaded JSON value (`str` of a `str` is itself;
other values render via `repr`). -/
def pyStr : Json → String
  | .jstr s => s
  | j => pyRepr j

/-- Python truthiness (`if not start_val`, `if end_val`). -/
def pyFalsy : Json → Bool
  | .jstr s => s == ""
  | .jnum n => n == 0
  | .jbool b => !b
  | .jnull => true
  | .jarr items => items.isEmpty
  | .jobj fields => fields.isEmpty

/-- `item[k]` lookup on a dict (`k in item` guard included). -/
def jGet (fields : List (String × Json)) (k : String) : Option Json :=
  (fields.find? (fun p => p.1 == k)).map (fun p => p.2)

/-- `item.get(k, default)`. -/
def jGetD (fields : List (String × Json)) (k : String) (d : Json) : Json :=
  (jGet fields k).getD d

/-- `next((item[k] for k in keys if k in item), None)`. -/
def firstKeyVal (fields : List (String × Json)) : List String → Option Json
  | [] => none
  | k :: ks =>
    match jGet fields k with
    | some v => some v
    | none => firstKeyVal fields ks

/-! ## The canonical reservation record -/

/-- One row of the scraper's output (the dict literals at lines 221-233,
286-298 and 325-337 of the source).  `duration_hours` holds the Python
float exactly, as an integer count of hundredths of an hour: every
duration the program builds is either the literal `0.5` (here `50`) or
`round(x, 2)`, an exact multiple of `0.01`, so this encoding is
injective and preserves row equality. -/
structure Record where
  date : String
  day_of_week : String
  start_time : String
  end_time : String
  duration_hours : Int
  room_name : String
  room_id : String
  hour_of_day : Nat
  month : Nat
  week_of_year : Nat
  source : String
deriving DecidableEq, Repr

/-- Round `num / den` (with `den` positive) half-to-even to an integer
(Python `round` semantics on an exactly representable value). -/
def roundHalfEvenDiv (num den : Int) : Int :=
  if 2 * (num - Int.fdiv num den * den) < den then Int.fdiv num den
  else if den < 2 * (num - Int.fdiv num den * den) then Int.fdiv num den + 1
  else if Int.fdiv num den % 2 = 0 then Int.fdiv num den else Int.fdiv num den + 1

/-- `round((end_dt - start_dt).seconds / 3600, 2)` in hundredths of an
hour: `timedelta.seconds` normalises the difference into `[0, 86400)`,
so a negative same-day span wraps instead of staying negative; the
rounded float `seconds / 3600` equals `roundHalfEvenDiv (seconds * 100)
3600` hundredths. -/
def durHours (diffMin : Int) : Int :=
  roundHalfEvenDiv (((diffMin * 60) % 86400) * 100) 3600

/-! ## Page model

A fetched page after BeautifulSoup parsing (and, for strategy 2, after
the `re.findall`/`json.loads` step, whose per-candidate outcome — a
decode failure or a loaded array — is the interface the program logic
sees).  `elements` is the list of DOM elements `soup.find_all(attrs=…)`
scans for strategy 3, in document order, with the attributes that
strategy reads; table cells appear in it too when their attributes could
match an event selector. -/

/-- A table cell (`td`/`th`): its `class` attribute list and stripped text. -/
structure Cell where
  classes : List String
  text : String

/-- A table: its `tr` rows, each the list of `td`/`th` cells. -/
structure Table where
  rows : List (List Cell)

/-- A DOM element as seen by strategy 3. -/
structure Element where
  classes : List String
  dataType : Option String
  dataRoom : Option String
  text : String

/-- A parsed page. -/
structure Page where
  tables : List Table
  scripts : List (List (Except Unit (List Json)))
  elements : List Element

/-! ## Strategy 1: grid table (lines 172-233) -/

/-- Keywords that qualify a header row as a reservation grid (line 183). -/
def roomKeywords : List String :=
  ["room", "104", "211", "230", "311", "319", "grover", "lakeview"]

/-- Header qualification check (lines 182-184). -/
def headerQualifies (headers : List String) : Bool :=
  roomKeywords.any (fun k => hasSubStr (lowerStr (joinSpace headers)) k)

/-- CSS-class keywords marking a reserved slot (line 216). -/
def classKeywords : List String := ["reserved", "booked", "unavailable", "occupied", "event"]

/-- Cell-text keywords marking a reserved slot (line 218). -/
def textKeywords : List String := ["reserved", "booked", "unavailable"]

/-- Lines 215-218: a slot cell is flagged as reserved. -/
def is_reserved (cell_classes cell_text : String) : Bool :=
  classKeywords.any (fun k => hasSubStr (lowerStr cell_classes) k) ||
  textKeywords.any (fun k => hasSubStr (lowerStr cell_text) k)

/-- `re.match(r"(\d{1,2}):(\d{2})\s*(AM|PM)?", time_text, re.IGNORECASE)`
(line 193): one or two digits (with the regex backtracking forced by the
following `:`), a colon, exactly two digits, optional whitespace, an
optional case-insensitive meridiem (`some true` = PM); trailing text is
ignored because `re.match` only anchors at the start. -/
def matchGridTime (cs : List Char) : Option (Nat × Nat × Option Bool) := do
  let (h, r1) ←
    match cs with
    | a :: b :: c :: r =>
      if a.isDigit ∧ b.isDigit ∧ c = ':' then some (dval a * 10 + dval b, r)
      else if a.isDigit ∧ b = ':' then some (dval a, c :: r)
      else none
    | [a, b] => if a.isDigit ∧ b = ':' then some (dval a, []) else none
    | _ => none
  let (m, r2) ←
    match r1 with
    | a :: b :: r => if a.isDigit ∧ b.isDigit then some (dval a * 10 + dval b, r) else none
    | _ => none
  let r3 := r2.dropWhile isPyWS
  let mer : Option Bool :=
    match r3 with
    | a :: b :: _ =>
      if lowerChar a = 'a' ∧ lowerChar b = 'm' then some false
      else if lowerChar a = 'p' ∧ lowerChar b = 'm' then some true
      else none
    | _ => none
  some (h, m, mer)

/-- The meridiem adjustment of lines 200-203. -/
def adjustMer (h : Nat) : Option Bool → Nat
  | some true => if h ≠ 12 then h + 12 else h
  | some false => if h = 12 then 0 else h
  | none => h

/-- One reserved-slot check for a room column (lines 208-233):
`enumerate(cells[1:], start=1)` supplies the pair of zero-based tail
index and cell. -/
def gridCellRecord (headers : List String) (date : Date) (hour minute : Nat)
    (p : Nat × Cell) : Option Record :=
  let col_idx := p.1 + 1
  let col_name :=
    if col_idx < headers.length then headers.getD col_idx ""
    else "Room_" ++ toString col_idx
  if is_reserved (joinSpace p.2.classes) p.2.text then
    some
      { date := fmtDate date
        day_of_week := weekdayName date
        start_time := fmtHM (hour * 60 + minute)
        end_time := fmtHM ((hour * 60 + minute + 30) % 1440)
        duration_hours := 50
        room_name := col_name
        room_id := col_name
        hour_of_day := hour
        month := date.month
        week_of_year := isoWeek date
        source := "grid_table" }
  else none

/-- One non-header row (lines 187-233).  `date.replace(hour=…, minute=…)`
raises `ValueError` — uncaught in this strategy — when the adjusted hour
or the minute is out of range. -/
def rowRecords (headers : List String) (date : Date) (cells : List Cell) :
    Except String (List Record) :=
  match cells with
  | [] => .ok []
  | c0 :: rest =>
    match matchGridTime c0.text.toList with
    | none => .ok []
    | some v =>
      if 24 ≤ adjustMer v.1 v.2.2 then .error "hour must be in 0..23"
      else if 60 ≤ v.2.1 then .error "minute must be in 0..59"
      else .ok (rest.enum.filterMap (gridCellRecord headers date (adjustMer v.1 v.2.2) v.2.1))

/-- Sequence a fallible extraction over a list, concatenating results;
an exception in any step propagates (there is no `try` around strategy 1). -/
def collectE {α β : Type} (f : α → Except String (List β)) : List α → Except String (List β)
  | [] => .ok []
  | a :: as =>
    match f a with
    | .error e => .error e
    | .ok xs =>
      match collectE f as with
      | .error e => .error e
      | .ok ys => .ok (xs ++ ys)

/-- One table (lines 173-233): tables with fewer than three rows and
tables whose header row lacks a room keyword are skipped. -/
def tableRecords (date : Date) (t : Table) : Except String (List Record) :=
  if t.rows.length < 3 then .ok []
  else
    let headers := (t.rows.headD []).map (fun c => c.text)
    if headerQualifies headers then collectE (rowRecords headers date) t.rows.tail
    else .ok []

/-- Strategy 1 over all tables of the page. -/
def strat1 (date : Date) (tables : List Table) : Except String (List Record) :=
  collectE (tableRecords date) tables

/-! ## Strategy 2: script-embedded JSON (lines 235-300) -/

/-- The prioritized start-time key synonyms (line 270). -/
def time_keys : List String :=
  ["startTime", "start_time", "StartTime", "start", "Begin", "beginTime"]

/-- The prioritized end-time key synonyms (line 271, duplicate included). -/
def end_keys : List String :=
  ["endTime", "end_time", "EndTime", "end", "End", "endTime"]

/-- The prioritized room key synonyms (line 272). -/
def room_keys : List String :=
  ["roomName", "room_name", "RoomName", "room", "Room", "location"]

/-- `extract_from_json_item(item, date)` (lines 267-300): `none` models
both the explicit `return None` and the caught `ValueError`/`TypeError`. -/
def extract_from_json_item (item : List (String × Json)) (date : Date) : Option Record :=
  let start_val := firstKeyVal item time_keys
  let end_val := firstKeyVal item end_keys
  let room_val := (firstKeyVal item room_keys).getD (.jstr "Unknown")
  match start_val with
  | none => none
  | some sv =>
    if pyFalsy sv then none
    else
      match parseClock (pyStr sv) with
      | none => none
      | some (sh, sm) =>
        let startMin := sh * 60 + sm
        let endAbs? : Option Nat :=
          match end_val with
          | some ev =>
            if pyFalsy ev then some (startMin + 60)
            else (parseClock (pyStr ev)).map (fun p => p.1 * 60 + p.2)
          | none => some (startMin + 60)
        match endAbs? with
        | none => none
        | some endAbs =>
          some
            { date := fmtDate date
              day_of_week := weekdayName date
              start_time := fmtHM startMin
              end_time := fmtHM (endAbs % 1440)
              duration_hours := durHours ((endAbs : Int) - (startMin : Int))
              room_name := pyStr room_val
              room_id := pyStr (jGetD item "roomId" (jGetD item "room_id" (.jstr "")))
              hour_of_day := startMin / 60
              month := date.month
              week_of_year := isoWeek date
              source := "json_embed" }

/-- Strategy 2 (lines 236-251): every syntactically valid loaded array
contributes its dict items; malformed blocks and non-dict items are
skipped. -/
def strat2 (date : Date) (scripts : List (List (Except Unit (List Json)))) : List Record :=
  scripts.flatMap fun script =>
    script.flatMap fun cand =>
      match cand with
      | .error _ => []
      | .ok items =>
        items.filterMap fun it =>
          match it with
          | .jobj fields => extract_from_json_item fields date
          | _ => none

/-! ## Strategy 3: pattern-matched text (lines 253-339) -/

/-- `re.search(r"event|reservation|booking", class_value, re.I)` — any of
the three words as a case-insensitive substring. -/
def eventClassRe (s : String) : Bool :=
  hasSubStr (lowerStr s) "event" || hasSubStr (lowerStr s) "reservation" ||
  hasSubStr (lowerStr s) "booking"

/-- First selector (line 255): a multi-valued `class` attribute matches
when any individual class value matches the regex. -/
def matchesSelClass (e : Element) : Bool := e.classes.any eventClassRe

/-- Second selector (line 256): `data-type` matching
`re.search(r"reservation|event", value, re.I)`. -/
def matchesSelData (e : Element) : Bool :=
  match e.dataType with
  | some s => hasSubStr (lowerStr s) "reservation" || hasSubStr (lowerStr s) "event"
  | none => false

/-- One time token of the range regex at line 309:
`\d{1,2}:\d{2}\s*(?:AM|PM)?` — returns the captured characters (the
group includes the consumed whitespace and meridiem) and the rest. -/
def matchTimeTok (cs : List Char) : Option (List Char × List Char) := do
  let (d1, r1) ←
    match cs with
    | a :: b :: c :: r =>
      if a.isDigit ∧ b.isDigit ∧ c = ':' then some ([a, b, c], r)
      else if a.isDigit ∧ b = ':' then some ([a, b], c :: r)
      else none
    | [a, b] => if a.isDigit ∧ b = ':' then some ([a, b], []) else none
    | _ => none
  let (d2, r2) ←
    match r1 with
    | a :: b :: r => if a.isDigit ∧ b.isDigit then some ([a, b], r) else none
    | _ => none
  let w := r2.takeWhile isPyWS
  let r3 := r2.dropWhile isPyWS
  let (mer, r4) ←
    match r3 with
    | a :: b :: r =>
      if (lowerChar a = 'a' ∨ lowerChar a = 'p') ∧ lowerChar b = 'm' then
        some ([a, b], r)
      else some (([] : List Char), a :: b :: r)
    | other => some (([] : List Char), other)
  some (d1 ++ d2 ++ w ++ mer, r4)

/-- A separator character of the class `[-–to]` (case-insensitive, so
`T` and `O` also match). -/
def isSepChar (c : Char) : Bool :=
  c = '-' || c = '–' || lowerChar c = 't' || lowerChar c = 'o'

/-- The full range pattern
`(\d{1,2}:\d{2}\s*(?:AM|PM)?)\s*[-–to]+\s*(\d{1,2}:\d{2}\s*(?:AM|PM)?)`
tried at one start position; yields the two captured groups. -/
def matchRangeAt (cs : List Char) : Option (List Char × List Char) := do
  let (t1, r1) ← matchTimeTok cs
  let r2 := r1.dropWhile isPyWS
  let r3 ←
    match r2 with
    | c :: r => if isSepChar c then some (r.dropWhile isSepChar) else none
    | [] => none
  let r4 := r3.dropWhile isPyWS
  let (t2, _) ← matchTimeTok r4
  some (t1, t2)

/-- `re.search` of the range pattern: leftmost match wins. -/
def searchTimeRange : List Char → Option (List Char × List Char)
  | [] => none
  | c :: r =>
    match matchRangeAt (c :: r) with
    | some x => some x
    | none => searchTimeRange r

/-- A word character for `\b` (`[A-Za-z0-9_]`). -/
def isWordChar (c : Char) : Bool := c.isAlphanum || c = '_'

/-- Case-insensitive literal prefix match returning the consumed
characters and the rest. -/
def matchCI : List Char → List Char → Option (List Char × List Char)
  | [], cs => some ([], cs)
  | _ :: _, [] => none
  | p :: ps, c :: cs =>
    if lowerChar c = lowerChar p then
      (matchCI ps cs).map fun q => (c :: q.1, q.2)
    else none

/-- The room regex at lines 321-322,
`Room\s*(\d{3})|(\b(?:Grover|Lakeview|Van Houten|TWC)\b)`, tried at one
position; `prev` is the preceding character for the `\b` check.  Returns
`group(0)`. -/
def matchRoomAt (prev : Option Char) (cs : List Char) : Option (List Char) :=
  let alt1 : Option (List Char) := do
    let (w1, r1) ← matchCI "room".toList cs
    let sp := r1.takeWhile isPyWS
    let r2 := r1.dropWhile isPyWS
    match r2 with
    | a :: b :: c :: _ =>
      if a.isDigit ∧ b.isDigit ∧ c.isDigit then some (w1 ++ sp ++ [a, b, c]) else none
    | _ => none
  match alt1 with
  | some g => some g
  | none =>
    let boundaryBefore :=
      match prev with
      | none => true
      | some p => !isWordChar p
    if boundaryBefore then
      let tryName (name : String) : Option (List Char) := do
        let (w, r) ← matchCI name.toList cs
        match r with
        | [] => some w
        | c :: _ => if isWordChar c then none else some w
      match tryName "Grover" with
      | some g => some g
      | none =>
        match tryName "Lakeview" with
        | some g => some g
        | none =>
          match tryName "Van Houten" with
          | some g => some g
          | none => tryName "TWC"
    else none

/-- `re.search` of the room pattern: scan positions left to right. -/
def searchRoomAux (prev : Option Char) : List Char → Option (List Char)
  | [] => none
  | c :: r =>
    match matchRoomAt prev (c :: r) with
    | some g => some g
    | none => searchRoomAux (some c) r

/-- Leftmost room-pattern match in a text. -/
def searchRoom (cs : List Char) : Option (List Char) := searchRoomAux none cs

/-- `extract_from_element(element, date)` (lines 303-339). -/
def extract_from_element (e : Element) (date : Date) : Option Record :=
  match searchTimeRange e.text.toList with
  | none => none
  | some (t1, t2) =>
    match parseClock (String.mk t1), parseClock (String.mk t2) with
    | some (sh, sm), some (eh, em) =>
      let startMin := sh * 60 + sm
      let endMin := eh * 60 + em
      let room_name :=
        match searchRoom e.text.toList with
        | some g => String.mk g
        | none => e.dataRoom.getD "Unknown"
      some
        { date := fmtDate date
          day_of_week := weekdayName date
          start_time := fmtHM startMin
          end_time := fmtHM (endMin % 1440)
          duration_hours := durHours ((endMin : Int) - (startMin : Int))
          room_name := room_name
          room_id := ""
          hour_of_day := startMin / 60
          month := date.month
          week_of_year := isoWeek date
          source := "html_element" }
    | _, _ => none

/-- Strategy 3 (lines 253-262): both selectors are scanned in turn, each
over every matching element in document order. -/
def strat3 (date : Date) (elements : List Element) : List Record :=
  (elements.filter matchesSelClass).filterMap (fun e => extract_from_element e date) ++
  (elements.filter matchesSelData).filterMap (fun e => extract_from_element e date)

/-! ## The extraction engine -/

/-- `parse_time_slots(html, date)` (lines 158-264): strategy 1 runs
first and its uncaught `ValueError` aborts the whole call; strategies 2
and 3 cannot fail. -/
def parse_time_slots (page : Page) (date : Date) : Except String (List Record) :=
  match strat1 date page.tables with
  | .error e => .error e
  | .ok r1 => .ok (r1 ++ strat2 date page.scripts ++ strat3 date page.elements)

/-! ## The collection orchestrator (lines 360-402) -/

/-- An observable step of the date-range loop: a page fetch or the
mandatory `time.sleep(delay)` politeness pause. -/
inductive Ev where
  | fetchEv (d : Date)
  | sleepEv (delay : ℚ)
deriving DecidableEq, Repr

/-- `df.drop_duplicates()` keeps the first occurrence of each fully
identical row (every column participates, `source` included). -/
def dropDupAux (seen : List Record) : List Record → List Record
  | [] => []
  | r :: rest =>
    if r ∈ seen then dropDupAux seen rest
    else r :: dropDupAux (r :: seen) rest

/-- `drop_duplicates` over a whole collection. -/
def dropDup (l : List Record) : List Record := dropDupAux [] l

/-- The sort key order of
`df.sort_values(["date", "room_name", "start_time"])`: lexicographic on
the three string columns. -/
def recLE (a b : Record) : Bool :=
  if a.date = b.date then
    if a.room_name = b.room_name then strLEb a.start_time b.start_time
    else strLEb a.room_name b.room_name
  else strLEb a.date b.date

/-- The sort step (line 401), modelled as a sort by the key columns (the
pandas default quicksort fixes no tie order; no property proved below
depends on the order of tied rows). -/
def sortRecords (l : List Record) : List Record :=
  List.insertionSort (fun a b => recLE a b = true) l

/-- The body of the `while current <= end_date` loop (lines 376-388),
with fuel for termination; the fuel passed by `collect_date_range` is
exactly the number of iterations the guard admits.  Produces the
accumulated records and the trace of fetches and sleeps; an uncaught
extraction `ValueError` propagates. -/
def collectAux (fetchF : Date → Option Page) (delay : ℚ) (endD : Date) :
    Nat → Date → Except String (List Record × List Ev)
  | 0, _ => .ok ([], [])
  | fuel + 1, current =>
    if dateLE current endD = true then
      match fetchF current with
      | some page =>
        match parse_time_slots page current with
        | .error e => .error e
        | .ok recs =>
          match collectAux fetchF delay endD fuel (nextDate current) with
          | .error e => .error e
          | .ok (rest, evs) =>
            .ok (recs ++ rest, .fetchEv current :: .sleepEv delay :: evs)
      | none =>
        match collectAux fetchF delay endD fuel (nextDate current) with
        | .error e => .error e
        | .ok (rest, evs) => .ok (rest, .fetchEv current :: .sleepEv delay :: evs)
    else .ok ([], [])

/-- `collect_date_range(session, start_date, end_date, delay)`
(lines 360-402).  The fetch collaborator is injected
(`fetch_availability_page` is HTTP transport, outside the core); `none`
covers both a `None` return and falsy empty content, per the `if html:`
test at line 380.  An empty accumulation returns the explicit empty
dataset; otherwise the result is deduplicated and sorted. -/
def collect_date_range (fetchF : Date → Option Page) (delay : ℚ)
    (start_date end_date : Date) : Except String (List Record × List Ev) :=
  match collectAux fetchF delay end_date
      ((toRD end_date - toRD start_date + 1).toNat) start_date with
  | .error e => .error e
  | .ok (all_records, evs) =>
    if all_records = [] then .ok ([], evs)
    else .ok (sortRecords (dropDup all_records), evs)

/-! ## Spec-side definitions (for refinement comparisons only)

These two definitions follow the specification's words, not the source;
they exist solely to state where the source disagrees with the spec. -/

/-- Modelled from the spec: a slot is reserved when the style
classification **or** the literal text contains any keyword of the fixed
five-element set, case-insensitively (§4.3 Strategy A). -/
def specReserved (cell_classes cell_text : String) : Bool :=
  classKeywords.any (fun k => hasSubStr (lowerStr cell_classes) k) ||
  classKeywords.any (fun k => hasSubStr (lowerStr cell_text) k)

/-- Modelled from the spec: the first three-digit numeric token of a
room name (a maximal run of exactly three digits), per the room-id
extraction rule of §4.2. -/
def specThreeDigitToken (s : String) : Option String :=
  let rec go (prev : Option Char) (cs : List Char) : Option String :=
    match cs with
    | a :: b :: c :: rest =>
      let prevOk := match prev with | some p => !p.isDigit | none => true
      let nextOk := match rest with | d :: _ => !d.isDigit | [] => true
      if a.isDigit && b.isDigit && c.isDigit && prevOk && nextOk then
        some (String.mk [a, b, c])
      else go (some a) (b :: c :: rest)
    | _ => none
  go none s.toList

/-! ## Totality side conditions for strategy 1

Strategy 1's only failure point is `date.replace` on an out-of-range
slot time; these predicates name the pages on which that cannot fire. -/

/-- `.ok` test for an `Except`. -/
def exceptIsOk {ε α : Type} : Except ε α → Bool
  | .ok _ => true
  | .error _ => false

/-- A non-header grid row whose time label (if its first cell matches
the slot regex at all) denotes a valid wall-clock time after meridiem
adjustment. -/
def rowTimeOk (row : List Cell) : Bool :=
  match row with
  | [] => true
  | c0 :: _ =>
    match matchGridTime c0.text.toList with
    | none => true
    | some v => decide (adjustMer v.1 v.2.2 < 24 ∧ v.2.1 < 60)

/-- A table on which strategy 1 cannot raise: it is skipped outright, or
all its time labels are safe. -/
def tableOk (t : Table) : Bool :=
  decide (t.rows.length < 3) ||
  !headerQualifies ((t.rows.headD []).map (fun c => c.text)) ||
  t.rows.tail.all rowTimeOk

/-! ## Renderings of one wall-clock time in the supported formats (§8) -/

/-- The 12-hour rendering of a time of day, e.g. `"2:30 PM"`. -/
def render12 (h m : Nat) : String :=
  toString (if h % 12 = 0 then 12 else h % 12) ++ ":" ++ pad2 m ++ " " ++
    (if h < 12 then "AM" else "PM")

/-- The 24-hour rendering, e.g. `"14:30"`. -/
def render24 (h m : Nat) : String := pad2 h ++ ":" ++ pad2 m

/-- An ISO-8601 datetime rendering carrying the same wall-clock time
(its date part is ignored by `parse_time_string`), e.g.
`"2024-01-01T14:30:00"`. -/
def renderISO (h m : Nat) : String := "2024-01-01T" ++ pad2 h ++ ":" ++ pad2 m ++ ":00"

/-! ## Concrete scenario inputs -/

/-- 2024-03-01, the anchor day of the concrete scenarios. -/
def d0 : Date := ⟨2024, 3, 1⟩

/-- Day 2 of the three-day range. -/
def dDay2 : Date := ⟨2024, 3, 2⟩

/-- Day 3 of the three-day range. -/
def dDay3 : Date := ⟨2024, 3, 3⟩

/-- The header row `["Time", "Room 104", "Room 211"]` of §8's scenario. -/
def hdrRow : List Cell := [⟨[], "Time"⟩, ⟨[], "Room 104"⟩, ⟨[], "Room 211"⟩]

/-- The data row `["9:00 AM", class="reserved", class=""]`. -/
def row104 : List Cell := [⟨[], "9:00 AM"⟩, ⟨["reserved"], ""⟩, ⟨[], ""⟩]

/-- §8's scenario table exactly as stated: header plus one data row. -/
def scenarioTable2 : Table := ⟨[hdrRow, row104]⟩

/-- The same table padded with an empty third `tr` (no cells), enough to
pass the three-row gate. -/
def scenarioTable3 : Table := ⟨[hdrRow, row104, []]⟩

/-- A page holding only §8's two-row scenario table. -/
def page2 : Page := ⟨[scenarioTable2], [], []⟩

/-- A page holding the padded three-row scenario table. -/
def page3 : Page := ⟨[scenarioTable3], [], []⟩

/-- A `div class="event"` whose text repeats the same slot in prose. -/
def evDiv : Element := ⟨["event"], none, none, "Room 104 9:00 AM - 9:30 AM"⟩

/-- A page on which strategies 1 and 3 discover the same slot. -/
def page1cx : Page := ⟨[scenarioTable3], [], [evDiv]⟩

/-- A data row whose time label `"13:00 PM"` matches the slot regex but
adjusts to hour 25. -/
def badRow : List Cell := [⟨[], "13:00 PM"⟩, ⟨["reserved"], ""⟩]

/-- A qualifying page containing the poisoned row. -/
def pageBad : Page := ⟨[⟨[hdrRow, badRow, []]⟩], [], []⟩

/-- A cell whose class list is empty and whose literal text reads
`"occupied"`. -/
def occRow : List Cell := [⟨[], "9:00 AM"⟩, ⟨[], "occupied"⟩]

/-- A qualifying page containing the `"occupied"`-text cell. -/
def pageOcc : Page := ⟨[⟨[hdrRow, occRow, []]⟩], [], []⟩

/-- A page whose script embeds `[{"start": "10:00", "end": "9:00"}]` —
an event ending before it starts. -/
def pageJ4 : Page :=
  ⟨[], [[.ok [.jobj [("start", .jstr "10:00"), ("end", .jstr "9:00")]]]], []⟩

/-- A page whose script embeds
`[{"start": "10:00", "end": "10:00", "roomName": ""}]` — a zero-length
event with an explicitly empty room name. -/
def pageJ7 : Page :=
  ⟨[], [[.ok [.jobj [("start", .jstr "10:00"), ("end", .jstr "10:00"),
    ("roomName", .jstr "")]]]], []⟩

/-- The single record §8's scenario produces once the table passes the
three-row gate. -/
def gridRec : Record :=
  { date := "2024-03-01", day_of_week := "Friday", start_time := "09:00",
    end_time := "09:30", duration_hours := 50, room_name := "Room 104",
    room_id := "Room 104", hour_of_day := 9, month := 3, week_of_year := 9,
    source := "grid_table" }

/-- The strategy-3 record for the same slot: identical on
`(date, roomName, start, end)` yet a different row. -/
def elemRec : Record :=
  { date := "2024-03-01", day_of_week := "Friday", start_time := "09:00",
    end_time := "09:30", duration_hours := 50, room_name := "Room 104",
    room_id := "", hour_of_day := 9, month := 3, week_of_year := 9,
    source := "html_element" }

/-- The record the engine produces from `pageJ4` — kept, with the
negative span wrapped to 23 hours by `timedelta.seconds`. -/
def j4Rec : Record :=
  { date := "2024-03-01", day_of_week := "Friday", start_time := "10:00",
    end_time := "09:00", duration_hours := 2300, room_name := "Unknown",
    room_id := "", hour_of_day := 10, month := 3, week_of_year := 9,
    source := "json_embed" }

/-- The record the engine produces from `pageJ7`: empty room name, zero
duration. -/
def j7Rec : Record :=
  { date := "2024-03-01", day_of_week := "Friday", start_time := "10:00",
    end_time := "10:00", duration_hours := 0, room_name := "",
    room_id := "", hour_of_day := 10, month := 3, week_of_year := 9,
    source := "json_embed" }

/-- `pageJ7` extracted on day 3 of the three-day range. -/
def j7RecDay3 : Record :=
  { date := "2024-03-03", day_of_week := "Sunday", start_time := "10:00",
    end_time := "10:00", duration_hours := 0, room_name := "",
    room_id := "", hour_of_day := 10, month := 3, week_of_year := 9,
    source := "json_embed" }

/-- A fetch collaborator serving `page1cx` on the anchor day only. -/
def cxFetch : Date → Option Page := fun x => if x = d0 then some page1cx else none

/-- A fetch collaborator for the three-day scenario: pages on days 1 and
3, nothing on day 2. -/
def w10Fetch : Date → Option Page :=
  fun x => if x = d0 then some page3 else if x = dDay3 then some pageJ7 else none

/-! ## Helper lemmas -/

/-- Half-to-even rounding never goes below the floored quotient. -/
theorem roundHalfEvenDiv_ge_floor (num den : Int) :
    Int.fdiv num den ≤ roundHalfEvenDiv num den := by
  unfold roundHalfEvenDiv
  split
  · exact le_refl _
  · split
    · omega
    · split
      · exact le_refl _
      · omega

/-- The wrapped duration is never negative. -/
theorem durHours_nonneg (x : Int) : 0 ≤ durHours x := by
  unfold durHours
  have h1 : (0 : Int) ≤ (x * 60) % 86400 := Int.emod_nonneg _ (by norm_num)
  have h2 : (0 : Int) ≤ Int.fdiv (((x * 60) % 86400) * 100) 3600 :=
    Int.fdiv_nonneg (by omega) (by norm_num)
  exact le_trans h2 (roundHalfEvenDiv_ge_floor _ _)

/-- Inverting a successful `collectE`: every output element comes from a
successful step on some input element. -/
theorem collectE_mem {α β : Type} (f : α → Except String (List β)) :
    ∀ (l : List α) (out : List β) (b : β), collectE f l = .ok out → b ∈ out →
      ∃ a ∈ l, ∃ la, f a = .ok la ∧ b ∈ la := by
  intro l
  induction l with
  | nil =>
    intro out b h hb
    simp only [collectE] at h
    cases h
    simp at hb
  | cons a as ih =>
    intro out b h hb
    simp only [collectE] at h
    cases hfa : f a with
    | error e => rw [hfa] at h; cases h
    | ok xs =>
      rw [hfa] at h
      cases hrec : collectE f as with
      | error e => rw [hrec] at h; cases h
      | ok ys =>
        rw [hrec] at h
        cases h
        rcases List.mem_append.mp hb with hx | hy
        · exact ⟨a, List.mem_cons_self a as, xs, hfa, hx⟩
        · rcases ih ys b hrec hy with ⟨a', ha', la, hfa', hb'⟩
          exact ⟨a', List.mem_cons_of_mem a ha', la, hfa', hb'⟩

/-- `collectE` succeeds when every step succeeds. -/
theorem collectE_ok {α β : Type} (f : α → Except String (List β)) :
    ∀ (l : List α), (∀ a ∈ l, exceptIsOk (f a) = true) →
      exceptIsOk (collectE f l) = true := by
  intro l
  induction l with
  | nil => intro _; rfl
  | cons a as ih =>
    intro h
    simp only [collectE]
    cases hfa : f a with
    | error e =>
      have := h a (List.mem_cons_self a as)
      rw [hfa] at this
      cases this
    | ok xs =>
      cases hrec : collectE f as with
      | error e =>
        have := ih fun x hx => h x (List.mem_cons_of_mem a hx)
        rw [hrec] at this
        cases this
      | ok ys => rfl

/-- Elements surviving `drop_duplicates` were present before. -/
theorem dropDupAux_subset :
    ∀ (l seen : List Record) (r : Record), r ∈ dropDupAux seen l → r ∈ l := by
  intro l
  induction l with
  | nil => intro seen r h; simp [dropDupAux] at h
  | cons a as ih =>
    intro seen r h
    simp only [dropDupAux] at h
    by_cases ha : a ∈ seen
    · simp only [if_pos ha] at h
      exact List.mem_cons_of_mem a (ih seen r h)
    · simp only [if_neg ha] at h
      rcases List.mem_cons.mp h with rfl | h'
      · exact List.mem_cons_self _ _
      · exact List.mem_cons_of_mem a (ih (a :: seen) r h')

/-- `drop_duplicates` avoids the seen set and yields pairwise-distinct
rows. -/
theorem dropDupAux_nodup :
    ∀ (l seen : List Record),
      (∀ x ∈ dropDupAux seen l, x ∉ seen) ∧ (dropDupAux seen l).Nodup := by
  intro l
  induction l with
  | nil =>
    intro seen
    refine ⟨?_, ?_⟩
    · intro x h
      simp [dropDupAux] at h
    · simp [dropDupAux]
  | cons a as ih =>
    intro seen
    simp only [dropDupAux]
    by_cases ha : a ∈ seen
    · simp only [if_pos ha]
      exact ih seen
    · simp only [if_neg ha]
      rcases ih (a :: seen) with ⟨hmem, hnd⟩
      refine ⟨?_, ?_⟩
      · intro x hx
        rcases List.mem_cons.mp hx with rfl | hx'
        · exact ha
        · intro hxs
          exact hmem x hx' (List.mem_cons_of_mem a hxs)
      · refine List.nodup_cons.mpr ⟨?_, hnd⟩
        intro hcontra
        exact hmem a hcontra (List.mem_cons_self a seen)

/-- The final dataset is pairwise distinct as full rows. -/
theorem dropDup_nodup (l : List Record) : (dropDup l).Nodup :=
  (dropDupAux_nodup l []).2

/-- `drop_duplicates` output is a sublist of its input memberwise. -/
theorem dropDup_subset (l : List Record) (r : Record) (h : r ∈ dropDup l) : r ∈ l :=
  dropDupAux_subset l [] r h

/-- The sort step permutes its input. -/
theorem sortRecords_perm (l : List Record) : List.Perm (sortRecords l) l :=
  List.perm_insertionSort _ l

/-- Every record emitted by a grid cell check carries the grid shape:
`grid_table` provenance, the formatted date, the fixed half-hour
duration, and a room id equal to the column name. -/
theorem gridCellRecord_facts (headers : List String) (d : Date) (hour minute : Nat)
    (p : Nat × Cell) (r : Record) (h : gridCellRecord headers d hour minute p = some r) :
    r.source = "grid_table" ∧ r.date = fmtDate d ∧ r.duration_hours = 50 ∧
      r.room_id = r.room_name := by
  simp only [gridCellRecord] at h
  split at h
  · injection h with h'
    subst h'
    exact ⟨rfl, rfl, rfl, rfl⟩
  · cases h

/-- Every record extracted from a JSON item carries the strategy-2
shape: `json_embed` provenance, the formatted date, and a
`timedelta.seconds`-wrapped duration. -/
theorem extract_json_facts (item : List (String × Json)) (d : Date) (r : Record)
    (h : extract_from_json_item item d = some r) :
    r.source = "json_embed" ∧ r.date = fmtDate d ∧
      ∃ x : Int, r.duration_hours = durHours x := by
  simp only [extract_from_json_item] at h
  split at h
  · cases h
  · split at h
    · cases h
    · split at h
      · cases h
      · split at h
        · cases h
        · injection h with h'
          subst h'
          exact ⟨rfl, rfl, _, rfl⟩

/-- Every record extracted from a DOM element carries the strategy-3
shape: `html_element` provenance, the formatted date, an empty room id,
and a wrapped duration. -/
theorem extract_elem_facts (e : Element) (d : Date) (r : Record)
    (h : extract_from_element e d = some r) :
    r.source = "html_element" ∧ r.date = fmtDate d ∧ r.room_id = "" ∧
      ∃ x : Int, r.duration_hours = durHours x := by
  simp only [extract_from_element] at h
  split at h
  · cases h
  · split at h
    · injection h with h'
      subst h'
      exact ⟨rfl, rfl, rfl, _, rfl⟩
    · cases h

/-- Inverting a successful row scan: each record comes from one cell. -/
theorem rowRecords_facts (headers : List String) (d : Date) (cells : List Cell)
    (out : List Record) (r : Record) (h : rowRecords headers d cells = .ok out)
    (hr : r ∈ out) :
    r.source = "grid_table" ∧ r.date = fmtDate d ∧ r.duration_hours = 50 ∧
      r.room_id = r.room_name := by
  simp only [rowRecords] at h
  split at h
  · cases h
    simp at hr
  · split at h
    · cases h
      simp at hr
    · split at h
      · cases h
      · split at h
        · cases h
        · cases h
          rcases List.mem_filterMap.mp hr with ⟨p, _, hp⟩
          exact gridCellRecord_facts _ _ _ _ _ _ hp

/-- Inverting a successful strategy-1 pass. -/
theorem strat1_facts (d : Date) (tables : List Table) (out : List Record) (r : Record)
    (h : strat1 d tables = .ok out) (hr : r ∈ out) :
    r.source = "grid_table" ∧ r.date = fmtDate d ∧ r.duration_hours = 50 ∧
      r.room_id = r.room_name := by
  rcases collectE_mem _ tables out r h hr with ⟨t, _, lt, hlt, hrt⟩
  simp only [tableRecords] at hlt
  split at hlt
  · cases hlt
    simp at hrt
  · split at hlt
    · rcases collectE_mem _ _ lt r hlt hrt with ⟨row, _, lr, hlr, hrr⟩
      exact rowRecords_facts _ _ _ _ _ hlr hrr
    · cases hlt
      simp at hrt

/-- Inverting strategy 2: every record comes from some dict item. -/
theorem strat2_facts (d : Date) (scripts : List (List (Except Unit (List Json))))
    (r : Record) (hr : r ∈ strat2 d scripts) :
    ∃ item, extract_from_json_item item d = some r := by
  simp only [strat2] at hr
  rcases List.mem_flatMap.mp hr with ⟨script, _, hr2⟩
  rcases List.mem_flatMap.mp hr2 with ⟨cand, _, hr3⟩
  cases cand with
  | error e => simp at hr3
  | ok items =>
    rcases List.mem_filterMap.mp hr3 with ⟨it, _, hit⟩
    cases it with
    | jobj fields => exact ⟨fields, hit⟩
    | jstr s => cases hit
    | jnum n => cases hit
    | jbool b => cases hit
    | jnull => cases hit
    | jarr items2 => cases hit

/-- Inverting strategy 3: every record comes from some element. -/
theorem strat3_facts (d : Date) (elements : List Element) (r : Record)
    (hr : r ∈ strat3 d elements) :
    ∃ e, extract_from_element e d = some r := by
  simp only [strat3] at hr
  rcases List.mem_append.mp hr with h1 | h2
  · rcases List.mem_filterMap.mp h1 with ⟨e, _, he⟩
    exact ⟨e, he⟩
  · rcases List.mem_filterMap.mp h2 with ⟨e, _, he⟩
    exact ⟨e, he⟩

/-- The shape facts every extracted record satisfies, by strategy. -/
theorem parse_time_slots_facts (page : Page) (d : Date) (recs : List Record)
    (r : Record) (h : parse_time_slots page d = .ok recs) (hr : r ∈ recs) :
    r.date = fmtDate d ∧ 0 ≤ r.duration_hours ∧
      (r.source = "grid_table" → r.duration_hours = 50 ∧ r.room_id = r.room_name) ∧
      (r.source = "html_element" → r.room_id = "") := by
  simp only [parse_time_slots] at h
  cases hs : strat1 d page.tables with
  | error e => rw [hs] at h; cases h
  | ok r1 =>
    rw [hs] at h
    cases h
    rcases List.mem_append.mp hr with h12 | h3
    · rcases List.mem_append.mp h12 with h1 | h2
      · rcases strat1_facts d page.tables r1 r hs h1 with ⟨hsrc, hdate, hdur, hid⟩
        refine ⟨hdate, by rw [hdur]; norm_num, fun _ => ⟨hdur, hid⟩, fun hx => ?_⟩
        rw [hsrc] at hx
        exact absurd hx (by decide)
      · rcases strat2_facts d page.scripts r h2 with ⟨item, hitem⟩
        rcases extract_json_facts item d r hitem with ⟨hsrc, hdate, x, hdur⟩
        refine ⟨hdate, by rw [hdur]; exact durHours_nonneg x, fun hx => ?_, fun hx => ?_⟩
        · rw [hsrc] at hx
          exact absurd hx (by decide)
        · rw [hsrc] at hx
          exact absurd hx (by decide)
    · rcases strat3_facts d page.elements r h3 with ⟨e, he⟩
      rcases extract_elem_facts e d r he with ⟨hsrc, hdate, hid, x, hdur⟩
      refine ⟨hdate, by rw [hdur]; exact durHours_nonneg x, fun hx => ?_, fun _ => hid⟩
      rw [hsrc] at hx
      exact absurd hx (by decide)

/-- A raising row has an unsafe time label. -/
theorem rowRecords_error (headers : List String) (d : Date) (cells : List Cell)
    (e : String) (h : rowRecords headers d cells = .error e) :
    rowTimeOk cells = false := by
  simp only [rowRecords] at h
  split at h
  · cases h
  · rename_i c0 rest
    split at h
    · cases h
    · rename_i v heq
      split at h
      · rename_i hbad
        simp only [rowTimeOk]
        rw [heq]
        exact decide_eq_false (by omega)
      · split at h
        · rename_i hbad
          simp only [rowTimeOk]
          rw [heq]
          exact decide_eq_false (by omega)
        · cases h

/-- A row with a safe time label cannot raise. -/
theorem rowRecords_ok (headers : List String) (d : Date) (cells : List Cell)
    (h : rowTimeOk cells = true) : exceptIsOk (rowRecords headers d cells) = true := by
  cases hrr : rowRecords headers d cells with
  | ok _ => rfl
  | error e =>
    rw [rowRecords_error headers d cells e hrr] at h
    cases h

/-- A table satisfying `tableOk` cannot raise. -/
theorem tableRecords_ok (d : Date) (t : Table) (h : tableOk t = true) :
    exceptIsOk (tableRecords d t) = true := by
  simp only [tableOk, Bool.or_eq_true] at h
  simp only [tableRecords]
  by_cases h3 : t.rows.length < 3
  · rw [if_pos h3]
    rfl
  · rw [if_neg h3]
    by_cases hq : headerQualifies ((t.rows.headD []).map (fun c => c.text)) = true
    · rw [if_pos hq]
      have hall : t.rows.tail.all rowTimeOk = true := by
        rcases h with (hlt | hhdr) | hall
        · exact absurd (of_decide_eq_true hlt) h3
        · rw [hq] at hhdr
          cases hhdr
        · exact hall
      exact collectE_ok _ _ fun row hrow =>
        rowRecords_ok _ d row (List.all_eq_true.mp hall row hrow)
    · rw [if_neg hq]
      rfl

/-- Strategy 1 succeeds on a page whose tables all satisfy `tableOk`. -/
theorem strat1_ok (d : Date) (tables : List Table)
    (h : ∀ t ∈ tables, tableOk t = true) :
    exceptIsOk (strat1 d tables) = true :=
  collectE_ok _ tables fun t ht => tableRecords_ok d t (h t ht)

/-- One unfolding of the date-range loop. -/
theorem collectAux_step (f : Date → Option Page) (δ : ℚ) (endD : Date)
    (fuel : Nat) (c : Date) :
    collectAux f δ endD (fuel + 1) c =
      (if dateLE c endD = true then
        match f c with
        | some page =>
          match parse_time_slots page c with
          | .error e => .error e
          | .ok recs =>
            match collectAux f δ endD fuel (nextDate c) with
            | .error e => .error e
            | .ok (rest, evs) => .ok (recs ++ rest, .fetchEv c :: .sleepEv δ :: evs)
        | none =>
          match collectAux f δ endD fuel (nextDate c) with
          | .error e => .error e
          | .ok (rest, evs) => .ok (rest, .fetchEv c :: .sleepEv δ :: evs)
      else .ok ([], [])) := rfl

/-- Claim C2 (counterexample): a start-after-end range does not fail —
the orchestrator returns the empty dataset with no fetch and no error,
contradicting the claimed fatal precondition violation. -/
theorem c2_counterexample :
    collect_date_range (fun _ => none) (3/2) ⟨2024, 3, 5⟩ ⟨2024, 3, 1⟩ =
      .ok ([], []) := rfl

/-- Claim C2 (amended): for every fetch collaborator, delay and date
pair with start after end, `collect_date_range` returns the explicitly
empty dataset (no records, no fetches, no sleeps) rather than failing;
no error is raised on a malformed range. -/
theorem c2_theorem (f : Date → Option Page) (δ : ℚ) (s e : Date)
    (h : dateLT e s = true) : collect_date_range f δ s e = .ok ([], []) := by
  have hle : dateLE s e = false := by
    simp only [dateLT, decide_eq_true_eq] at h
    simp only [dateLE, decide_eq_false_iff_not]
    omega
  simp only [collect_date_range]
  cases hfuel : ((toRD e - toRD s) + 1).toNat with
  | zero => rfl
  | succ n =>
    rw [collectAux_step]
    rw [if_neg (show ¬ dateLE s e = true from by simp [hle])]
    rfl

/-- Claim C2 (witness): the amended statement at a concrete reversed
range. -/
theorem c2_witness :
    dateLT (⟨2024, 3, 1⟩ : Date) ⟨2024, 3, 5⟩ = true ∧
      collect_date_range (fun _ => none) 1 ⟨2024, 3, 5⟩ ⟨2024, 3, 1⟩ = .ok ([], []) :=
  ⟨by decide, c2_theorem (fun _ => none) 1 ⟨2024, 3, 5⟩ ⟨2024, 3, 1⟩ (by decide)⟩

/-- Claim C3 (counterexample): on the page of §8's end-to-end scenario —
one table, header `["Time", "Room 104", "Room 211"]`, one data row —
the engine produces zero records, not the claimed single record,
because tables with fewer than three rows are skipped. -/
theorem c3_counterexample :
    parse_time_slots page2 d0 = .ok [] ∧ ([] : List Record) ≠ [gridRec] :=
  ⟨rfl, by decide⟩

/-- Claim C3 (amended): once the scenario table carries a third row (an
empty `tr`, enough to pass the three-row gate), extraction yields
exactly the one claimed record: `Room 104`, start 09:00, end 09:30,
duration half an hour, source `grid_table`. -/
theorem c3_theorem : parse_time_slots page3 d0 = .ok [gridRec] := rfl

/-- Claim C5 (counterexample): the engine is not total — a qualifying
grid table whose time label reads `"13:00 PM"` drives the meridiem
adjustment to hour 25 and `date.replace` raises an uncaught
`ValueError`. -/
theorem c5_counterexample :
    parse_time_slots pageBad d0 = .error "hour must be in 0..23" := rfl

/-- Claim C5 (amended): extraction never fails on any page whose
qualifying grid tables carry only safe time labels (in particular,
strategies 2 and 3 never raise; only strategy 1's slot-time computation
can). -/
theorem c5_theorem (page : Page) (d : Date)
    (h : ∀ t ∈ page.tables, tableOk t = true) :
    exceptIsOk (parse_time_slots page d) = true := by
  simp only [parse_time_slots]
  cases hs : strat1 d page.tables with
  | error e =>
    have hok := strat1_ok d page.tables h
    rw [hs] at hok
    cases hok
  | ok r1 => rfl

/-- Claim C5 (witness): the amended statement at the scenario page. -/
theorem c5_witness :
    (∀ t ∈ page3.tables, tableOk t = true) ∧
      exceptIsOk (parse_time_slots page3 d0) = true :=
  ⟨by decide, c5_theorem page3 d0 (by decide)⟩

/-- Claim C6 (counterexample): a cell with empty class and literal text
`"occupied"` is not classified as reserved by the code — the text check
uses only three keywords — although the claimed five-keyword rule would
classify it, and the page yields no record. -/
theorem c6_counterexample :
    is_reserved "" "occupied" = false ∧ specReserved "" "occupied" = true ∧
      parse_time_slots pageOcc d0 = .ok [] :=
  ⟨rfl, rfl, rfl⟩

/-- Claim C6 (amended): a slot cell is classified reserved exactly when
its style classification contains one of the five keywords
`reserved`, `booked`, `unavailable`, `occupied`, `event`, or its
literal text contains one of the three keywords `reserved`, `booked`,
`unavailable` — both as case-insensitive substrings; mixed-case class
text `"Reserved"` is detected identically to `"reserved"`. -/
theorem c6_theorem :
    (∀ cs txt : String, is_reserved cs txt = true ↔
      ((∃ k ∈ classKeywords, hasSubStr (lowerStr cs) k = true) ∨
        (∃ k ∈ textKeywords, hasSubStr (lowerStr txt) k = true))) ∧
    (∀ txt : String, is_reserved "Reserved" txt = is_reserved "reserved" txt) := by
  refine ⟨?_, ?_⟩
  · intro cs txt
    simp [is_reserved, List.any_eq_true]
  · intro txt
    rfl

/-- Claim C1 (counterexample): a one-day collection in which strategies
1 and 3 discover the same slot ends with two records in the final
dataset that agree on `(date, roomName, start, end)` but differ in
`source` (and `room_id`) — `drop_duplicates()` compares whole rows, so
the quadruple rule does not hold. -/
theorem c1_counterexample :
    collect_date_range cxFetch (3/2) d0 d0 =
        .ok ([gridRec, elemRec], [.fetchEv d0, .sleepEv (3/2)]) ∧
      gridRec.date = elemRec.date ∧ gridRec.room_name = elemRec.room_name ∧
      gridRec.start_time = elemRec.start_time ∧ gridRec.end_time = elemRec.end_time ∧
      gridRec ≠ elemRec :=
  ⟨rfl, rfl, rfl, rfl, rfl, by decide⟩

/-- Claim C1 (amended): deduplication collapses only fully identical
rows — every field, `source` included, participates — so the final
dataset of any collection contains no two identical records, while
records agreeing merely on the `(date, roomName, start, end)` quadruple
may both survive. -/
theorem c1_theorem (f : Date → Option Page) (δ : ℚ) (s e : Date)
    (l : List Record) (evs : List Ev)
    (h : collect_date_range f δ s e = .ok (l, evs)) : l.Nodup := by
  simp only [collect_date_range] at h
  split at h
  · cases h
  · rename_i p
    split at h
    · simp only [Except.ok.injEq, Prod.mk.injEq] at h
      obtain ⟨h1, _⟩ := h
      rw [← h1]
      exact List.nodup_nil
    · simp only [Except.ok.injEq, Prod.mk.injEq] at h
      obtain ⟨h1, _⟩ := h
      rw [← h1]
      exact ((sortRecords_perm _).nodup_iff).mpr (dropDup_nodup _)

/-- Claim C1 (witness): the amended statement at a concrete collection. -/
theorem c1_witness :
    collect_date_range (fun _ => none) 1 d0 d0 =
        .ok ([], [.fetchEv d0, .sleepEv 1]) ∧ ([] : List Record).Nodup :=
  ⟨rfl, c1_theorem (fun _ => none) 1 d0 d0 [] [.fetchEv d0, .sleepEv 1] rfl⟩

/-- Claim C7 (counterexample): a script-embedded item with equal start
and end times and an explicitly empty `roomName` produces a record with
an empty room name and zero duration — both data-model invariants
fail. -/
theorem c7_counterexample :
    parse_time_slots pageJ7 d0 = .ok [j7Rec] ∧ j7Rec.room_name = "" ∧
      j7Rec.duration_hours = 0 :=
  ⟨rfl, rfl, rfl⟩

/-- Claim C7 (amended): every record any strategy produces has a
nonnegative (possibly zero) duration, and every grid-table record has
duration exactly one half hour; the room name may be empty when the
page supplies an explicitly empty name, since the `"Unknown"` fallback
applies only to a missing key or attribute. -/
theorem c7_theorem (page : Page) (d : Date) (recs : List Record) (r : Record)
    (h : parse_time_slots page d = .ok recs) (hr : r ∈ recs) :
    0 ≤ r.duration_hours ∧ (r.source = "grid_table" → r.duration_hours = 50) := by
  rcases parse_time_slots_facts page d recs r h hr with ⟨_, hnn, hgrid, _⟩
  exact ⟨hnn, fun hx => (hgrid hx).1⟩

/-- Claim C7 (witness): the amended statement at the scenario record. -/
theorem c7_witness :
    parse_time_slots page3 d0 = .ok [gridRec] ∧
      (0 ≤ gridRec.duration_hours ∧
        (gridRec.source = "grid_table" → gridRec.duration_hours = 50)) :=
  ⟨rfl, c7_theorem page3 d0 [gridRec] gridRec rfl (by simp)⟩

/-- Claim C8 (counterexample): the grid record for column `"Room 104"`
has `room_id = "Room 104"` — the full room name — although the name
contains the three-digit token `104`, which the claim says should form
the id. -/
theorem c8_counterexample :
    parse_time_slots page3 d0 = .ok [gridRec] ∧
      specThreeDigitToken gridRec.room_name = some "104" ∧
      gridRec.room_id = "Room 104" ∧ gridRec.room_id ≠ "104" :=
  ⟨rfl, rfl, rfl, by decide⟩

/-- Claim C8 (amended): no strategy extracts a numeric token from the
room name — a grid record's `room_id` always equals its full
`room_name`, and an element record's `room_id` is always empty (a JSON
record's id comes from the item's own `roomId`/`room_id` keys, not from
the name). -/
theorem c8_theorem (page : Page) (d : Date) (recs : List Record) (r : Record)
    (h : parse_time_slots page d = .ok recs) (hr : r ∈ recs) :
    (r.source = "grid_table" → r.room_id = r.room_name) ∧
      (r.source = "html_element" → r.room_id = "") := by
  rcases parse_time_slots_facts page d recs r h hr with ⟨_, _, hgrid, helem⟩
  exact ⟨fun hx => (hgrid hx).2, helem⟩

/-- Claim C8 (witness): the amended statement at the element record of
the duplicate-slot page. -/
theorem c8_witness :
    parse_time_slots page1cx d0 = .ok [gridRec, elemRec] ∧
      ((elemRec.source = "grid_table" → elemRec.room_id = elemRec.room_name) ∧
        (elemRec.source = "html_element" → elemRec.room_id = "")) :=
  ⟨rfl, c8_theorem page1cx d0 [gridRec, elemRec] elemRec rfl (by simp)⟩

/-- Claim C4 (counterexample): a JSON item whose end (09:00) precedes
its start (10:00) is not discarded — the engine emits a record whose
duration wrapped to 23 hours (2300 hundredths). -/
theorem c4_counterexample :
    parse_time_slots pageJ4 d0 = .ok [j4Rec] ∧ j4Rec.start_time = "10:00" ∧
      j4Rec.end_time = "09:00" ∧ j4Rec.duration_hours = 2300 :=
  ⟨rfl, rfl, rfl, rfl⟩

/-- Claim C4 (amended): a JSON item whose parsed end time is not after
its parsed start time is retained, not discarded: the engine emits a
record whose duration is the start-to-end span wrapped modulo 24 hours
(zero when the times coincide), and no error is surfaced. -/
theorem c4_theorem (d : Date) (ss es : String) (sh sm eh em : Nat)
    (hs : parseClock ss = some (sh, sm)) (he : parseClock es = some (eh, em))
    (hle : eh * 60 + em ≤ sh * 60 + sm) :
    extract_from_json_item [("start", .jstr ss), ("end", .jstr es)] d =
      some { date := fmtDate d, day_of_week := weekdayName d,
             start_time := fmtHM (sh * 60 + sm),
             end_time := fmtHM ((eh * 60 + em) % 1440),
             duration_hours := durHours (((eh * 60 + em : Nat) : Int) -
               ((sh * 60 + sm : Nat) : Int)),
             room_name := "Unknown", room_id := "",
             hour_of_day := (sh * 60 + sm) / 60, month := d.month,
             week_of_year := isoWeek d, source := "json_embed" } := by
  have hss : pyFalsy (Json.jstr ss) = false := by
    by_cases hempty : ss = ""
    · rw [hempty] at hs
      rw [show parseClock "" = none from rfl] at hs
      cases hs
    · exact beq_eq_false_iff_ne.mpr hempty
  have hes : pyFalsy (Json.jstr es) = false := by
    by_cases hempty : es = ""
    · rw [hempty] at he
      rw [show parseClock "" = none from rfl] at he
      cases he
    · exact beq_eq_false_iff_ne.mpr hempty
  simp only [extract_from_json_item]
  rw [show firstKeyVal [("start", Json.jstr ss), ("end", Json.jstr es)] time_keys =
    some (Json.jstr ss) from rfl]
  rw [show firstKeyVal [("start", Json.jstr ss), ("end", Json.jstr es)] end_keys =
    some (Json.jstr es) from rfl]
  simp only [hss, hes, Bool.false_eq_true, if_false,
    show pyStr (Json.jstr ss) = ss from rfl, show pyStr (Json.jstr es) = es from rfl,
    hs, he, Option.map_some']
  rfl

/-- Claim C4 (witness): the amended statement at start 10:00 and end
09:00 — the record survives with a 23-hour wrapped duration. -/
theorem c4_witness :
    parseClock "10:00" = some (10, 0) ∧ parseClock "9:00" = some (9, 0) ∧
      9 * 60 + 0 ≤ 10 * 60 + 0 ∧
      extract_from_json_item [("start", .jstr "10:00"), ("end", .jstr "9:00")] d0 =
        some { date := fmtDate d0, day_of_week := weekdayName d0,
               start_time := fmtHM (10 * 60 + 0),
               end_time := fmtHM ((9 * 60 + 0) % 1440),
               duration_hours := durHours (((9 * 60 + 0 : Nat) : Int) -
                 ((10 * 60 + 0 : Nat) : Int)),
               room_name := "Unknown", room_id := "",
               hour_of_day := (10 * 60 + 0) / 60, month := d0.month,
               week_of_year := isoWeek d0, source := "json_embed" } :=
  ⟨rfl, rfl, by omega, c4_theorem d0 "10:00" "9:00" 10 0 9 0 rfl rfl (by omega)⟩

/-- Claim C9 (confirmed): for every hour and minute and every anchor
day, the time normalizer yields the same time-of-day from the 12-hour
rendering, the 24-hour rendering and the ISO datetime rendering — all
parse to the same minutes after midnight anchored to the given day. -/
theorem c9_theorem (h m : Nat) (hh : h < 24) (hm : m < 60) (day : Date) :
    parse_time_string (render12 h m) day = some (day, h * 60 + m) ∧
    parse_time_string (render24 h m) day = some (day, h * 60 + m) ∧
    parse_time_string (renderISO h m) day = some (day, h * 60 + m) := by
  have key : ∀ h' : Nat, h' < 24 → ∀ m' : Nat, m' < 60 →
      (parseClock (render12 h' m') = some (h', m') ∧
       parseClock (render24 h' m') = some (h', m') ∧
       parseClock (renderISO h' m') = some (h', m')) := by decide
  rcases key h hh m hm with ⟨k1, k2, k3⟩
  refine ⟨?_, ?_, ?_⟩ <;>
    simp only [parse_time_string, k1, k2, k3, Option.map_some']

/-- Claim C9 (witness): the three renderings of 14:30. -/
theorem c9_witness :
    (14 : Nat) < 24 ∧ (30 : Nat) < 60 ∧
    parse_time_string (render12 14 30) ⟨2024, 1, 1⟩ = some (⟨2024, 1, 1⟩, 14 * 60 + 30) ∧
    parse_time_string (render24 14 30) ⟨2024, 1, 1⟩ = some (⟨2024, 1, 1⟩, 14 * 60 + 30) ∧
    parse_time_string (renderISO 14 30) ⟨2024, 1, 1⟩ = some (⟨2024, 1, 1⟩, 14 * 60 + 30) := by
  refine ⟨by omega, by omega, ?_⟩
  exact c9_theorem 14 30 (by omega) (by omega) ⟨2024, 1, 1⟩

/-- Claim C10 (confirmed): collecting over the three-day range
2024-03-01 … 2024-03-03 with fetch yielding nothing on day 2, the
orchestrator raises no error, the trace performs the sleep after every
day's fetch attempt — after day 1 (hence before day 2), after the
failed day 2, and after day 3 — and every record in the result belongs
to day 1 or day 3. -/
theorem c10_theorem (f : Date → Option Page) (δ : ℚ) (p1 p3 : Page)
    (l1 l3 : List Record)
    (hf1 : f d0 = some p1) (hf2 : f dDay2 = none) (hf3 : f dDay3 = some p3)
    (hp1 : parse_time_slots p1 d0 = .ok l1)
    (hp3 : parse_time_slots p3 dDay3 = .ok l3) :
    ∃ l, collect_date_range f δ d0 dDay3 =
        .ok (l, [.fetchEv d0, .sleepEv δ, .fetchEv dDay2, .sleepEv δ,
          .fetchEv dDay3, .sleepEv δ]) ∧
      ∀ r ∈ l, r.date = "2024-03-01" ∨ r.date = "2024-03-03" := by
  have e0 : collectAux f δ dDay3 0 (nextDate dDay3) = .ok ([], []) := rfl
  have e3 : collectAux f δ dDay3 1 dDay3 =
      .ok (l3, [.fetchEv dDay3, .sleepEv δ]) := by
    rw [show (1 : Nat) = 0 + 1 from rfl, collectAux_step]
    rw [if_pos (show dateLE dDay3 dDay3 = true from rfl)]
    rw [hf3]
    simp only [hp3, e0, List.append_nil]
  have e2 : collectAux f δ dDay3 2 dDay2 =
      .ok (l3, [.fetchEv dDay2, .sleepEv δ, .fetchEv dDay3, .sleepEv δ]) := by
    rw [show (2 : Nat) = 1 + 1 from rfl, collectAux_step]
    rw [if_pos (show dateLE dDay2 dDay3 = true from rfl)]
    rw [hf2]
    simp only [show nextDate dDay2 = dDay3 from rfl, e3]
  have e1 : collectAux f δ dDay3 3 d0 =
      .ok (l1 ++ l3, [.fetchEv d0, .sleepEv δ, .fetchEv dDay2, .sleepEv δ,
        .fetchEv dDay3, .sleepEv δ]) := by
    rw [show (3 : Nat) = 2 + 1 from rfl, collectAux_step]
    rw [if_pos (show dateLE d0 dDay3 = true from rfl)]
    rw [hf1]
    simp only [hp1, show nextDate d0 = dDay2 from rfl, e2]
  simp only [collect_date_range]
  rw [show ((toRD dDay3 - toRD d0) + 1).toNat = 3 from rfl]
  rw [e1]
  dsimp only
  by_cases hemp : l1 ++ l3 = []
  · rw [if_pos hemp]
    exact ⟨[], rfl, fun r hr => absurd hr (List.not_mem_nil r)⟩
  · rw [if_neg hemp]
    refine ⟨sortRecords (dropDup (l1 ++ l3)), rfl, ?_⟩
    intro r hr
    have hr2 : r ∈ l1 ++ l3 :=
      dropDup_subset _ r ((sortRecords_perm _).mem_iff.mp hr)
    rcases List.mem_append.mp hr2 with hmem | hmem
    · exact Or.inl ((parse_time_slots_facts p1 d0 l1 r hp1 hmem).1)
    · exact Or.inr ((parse_time_slots_facts p3 dDay3 l3 r hp3 hmem).1)

/-- Claim C10 (witness): the statement at a concrete fetch collaborator
with pages on days 1 and 3 and nothing on day 2. -/
theorem c10_witness :
    ∃ l, collect_date_range w10Fetch 1 d0 dDay3 =
        .ok (l, [.fetchEv d0, .sleepEv 1, .fetchEv dDay2, .sleepEv 1,
          .fetchEv dDay3, .sleepEv 1]) ∧
      ∀ r ∈ l, r.date = "2024-03-01" ∨ r.date = "2024-03-03" :=
  c10_theorem w10Fetch 1 page3 pageJ7 [gridRec] [j7RecDay3] rfl rfl rfl rfl rfl
